import Mathlib

/-!
Shallow embedding of `mod_incapsula.c` (the `incapsula_module` Apache module).

The embedding follows the `AP_MODULE_MAGIC_AT_LEAST(20111130,0)` branch of the
source without `REMOTEIP_OPTIMIZED` (the branch the module compiles to on any
modern httpd): connection fields are `client_addr` / `client_ip`.

Modelling conventions:
  * C strings are `List Char` (`Str`); a `NULL` pointer is `Option.none`.
  * `apr_sockaddr_t` is `IPAddr` (family + raw bytes as naturals).
  * `apr_ipsubnet_t` is `Subnet` (family, base value, mask length);
    `apr_ipsubnet_test` is `subnetContains` restricted to same-family
    comparison (no claim exercises IPv4-mapped IPv6 addresses).
  * `apr_sockaddr_info_get` is modelled as numeric dotted-quad IPv4 parsing
    (`parseAddr`); hostname resolution and textual IPv6 are modelled as a
    parse failure — no claim depends on them.
  * The in-place string surgery of the header walk (lines 354-375 and the
    comma-restoring error paths) is modelled functionally by `popSplit`,
    `restoreEmpty` and `restoreTok`, reproducing exactly which characters
    the restored buffer holds after the `'\0'` writes.
  * The `while (remote)` loop (lines 324-464) is `walkF`, structurally
    recursive on a fuel argument; `runWalk` supplies fuel
    `header.length + 1`, which strictly dominates the loop's iteration
    count because every iteration either consumes at least one character
    (the comma split) or ends the walk.
  * Uninitialised fields of a freshly `apr_palloc`ed `incapsula_conn_t`
    (the C never zeroes them) are modelled as `none` / `[]`; the
    uninitialised `deny_all` of the merged server config is modelled as an
    explicit `uninit` parameter of `merge_incapsula_server_config`.
  * The default trusted-proxy entries never have `internal` assigned in
    `set_ic_default_proxies`; they are modelled as external (`false`),
    matching the zero-initialised first slot of `apr_array_make` and the
    documented intent that the vendor ranges are external proxies.
-/

abbrev Str := List Char

/-- A network address: family dispatch plus raw bytes, as in `apr_sockaddr_t`. -/
inductive IPAddr where
  | v4 (b0 b1 b2 b3 : Nat)
  | v6 (bytes : List Nat)
deriving DecidableEq, Repr

/-- The 32-bit value of a dotted quad. -/
def v4ToNat (b0 b1 b2 b3 : Nat) : Nat :=
  ((b0 * 256 + b1) * 256 + b2) * 256 + b3

/-- The 128-bit value of an IPv6 byte sequence. -/
def v6ToNat (bytes : List Nat) : Nat :=
  bytes.foldl (fun a b => a * 256 + b) 0

/-- An `apr_ipsubnet_t`: family flag, base address value and mask length. -/
structure Subnet where
  isV6 : Bool
  base : Nat
  plen : Nat
deriving DecidableEq, Repr

/-- `apr_ipsubnet_test`: does the subnet contain the address (same family only). -/
def subnetContains (s : Subnet) (a : IPAddr) : Bool :=
  match a with
  | .v4 b0 b1 b2 b3 =>
      !s.isV6 && (v4ToNat b0 b1 b2 b3) >>> (32 - s.plen) == s.base >>> (32 - s.plen)
  | .v6 bytes =>
      s.isV6 && (v6ToNat bytes) >>> (128 - s.plen) == s.base >>> (128 - s.plen)

/-- `incapsula_proxymatch_t`: a subnet with its internal flag
(`void *internal` used as a boolean). -/
structure incapsula_proxymatch_t where
  ip : Subnet
  internal : Bool
deriving DecidableEq, Repr

/-- The trust-table scan of lines 328-344: first entry (in configured order)
whose subnet contains the address wins; `none` when no entry matches. -/
def matchTable (tbl : List incapsula_proxymatch_t) (a : IPAddr) : Option Bool :=
  match tbl with
  | [] => none
  | e :: es => if subnetContains e.ip a then some e.internal else matchTable es a

/-- Build an IPv4 subnet entry from dotted-quad base and mask length. -/
def mkV4 (b0 b1 b2 b3 plen : Nat) : Subnet :=
  ⟨false, v4ToNat b0 b1 b2 b3, plen⟩

/-- `IC_DEFAULT_TRUSTED_PROXY` as installed by `set_ic_default_proxies`. -/
def IC_DEFAULT_TRUSTED_PROXY : List incapsula_proxymatch_t :=
  [⟨mkV4 199 83 128 0 21, false⟩,
   ⟨mkV4 198 143 32 0 19, false⟩,
   ⟨mkV4 149 126 72 0 21, false⟩,
   ⟨mkV4 103 28 248 0 22, false⟩,
   ⟨mkV4 45 64 64 0 22, false⟩,
   ⟨mkV4 185 11 124 0 22, false⟩,
   ⟨mkV4 192 230 64 0 18, false⟩]

/-- `incapsula_config_t`: per-server configuration. Pointer-valued fields are
`Option`; `deny_all` is the C `int` flag as a `Bool`. -/
structure incapsula_config_t where
  header_name : Option Str
  proxies_header_name : Option Str
  deny_all : Bool
  proxymatch_ip : Option (List incapsula_proxymatch_t)
deriving DecidableEq, Repr

/-- `create_incapsula_server_config`: `apr_pcalloc` zeroes the record, then the
default proxies and default header name are installed. -/
def create_incapsula_server_config : incapsula_config_t :=
  { header_name := some "Incap-Client-IP".data
    proxies_header_name := none
    deny_all := false
    proxymatch_ip := some IC_DEFAULT_TRUSTED_PROXY }

/-- `merge_incapsula_server_config` (lines 117-135): the merged record comes
from plain `apr_palloc`, so any field the function does not write keeps
indeterminate memory — modelled by the explicit `uninit` argument standing for
the uninitialised `deny_all` slot. -/
def merge_incapsula_server_config (uninit : Bool)
    (globalc serverc : incapsula_config_t) : incapsula_config_t :=
  { header_name := match serverc.header_name with
      | some x => some x
      | none => globalc.header_name
    proxies_header_name := match serverc.proxies_header_name with
      | some x => some x
      | none => globalc.proxies_header_name
    deny_all := uninit
    proxymatch_ip := match serverc.proxymatch_ip with
      | some x => some x
      | none => globalc.proxymatch_ip }

/-- `incapsula_conn_t`: the per-connection cache stored as pool userdata.
Fields left uninitialised at creation (line 447 only sets `orig_addr` and
`orig_ip`) are modelled as `none` / `[]`. -/
structure incapsula_conn_t where
  prior_remote : Option Str
  orig_addr : IPAddr
  orig_ip : Str
  proxy_ips : List Str
  proxied_remote : Option Str
  proxied_ip : Option Str
  proxied_addr : Option IPAddr
deriving DecidableEq, Repr

/-- The connection-scoped mutable state touched by the hook:
`c->client_addr`, `c->client_ip` and the `"mod_incapsula-conn"` userdata. -/
structure ConnState where
  client_addr : IPAddr
  client_ip : Str
  conn : Option incapsula_conn_t
deriving DecidableEq, Repr

/-- Strip trailing space characters, as the `eos` loop of lines 365-367 does. -/
def trimRight (s : Str) : Str :=
  (s.reverse.dropWhile (· == ' ')).reverse

/-- `strrchr(remote, ',')` surgery of lines 354-360: split at the last comma.
`(some pre, suf)` means the string was `pre ++ ',' :: suf` with no comma in
`suf` (the comma becomes the `'\0'`); `(none, s)` means no comma was found. -/
def popSplit : Str → Option Str × Str
  | [] => (none, [])
  | c :: cs =>
    match popSplit cs with
    | (some pre, suf) => (some (c :: pre), suf)
    | (none, suf) => if c = ',' then (some [], suf) else (none, c :: cs)

/-- Decimal value of a digit string. -/
def digitsVal (g : Str) : Nat :=
  g.foldl (fun a c => a * 10 + (c.toNat - 48)) 0

/-- One dotted-quad component: one to three digits, value at most 255,
no redundant leading zero. -/
def parseDecOctet (g : Str) : Option Nat :=
  if g.length == 0 || decide (g.length > 3) || !(g.all (·.isDigit))
      || (decide (g.length > 1) && (g.headD '0' == '0'))
      || decide (digitsVal g > 255) then
    none
  else
    some (digitsVal g)

/-- The address-parsing step (`apr_sockaddr_info_get`, line 395), modelled as
numeric dotted-quad IPv4 parsing; hostnames and textual IPv6 are modelled as
failure. -/
def parseAddr (s : Str) : Option IPAddr :=
  match s.splitOn '.' with
  | [g0, g1, g2, g3] =>
    match parseDecOctet g0, parseDecOctet g1, parseDecOctet g2, parseDecOctet g3 with
    | some a, some b, some c, some d => some (.v4 a b c d)
    | _, _, _, _ => none
  | _ => none

/-- `apr_sockaddr_ip_get`: canonical textual form of an address. -/
def ipToStr : IPAddr → Str
  | .v4 a b c d =>
      Nat.toDigits 10 a ++ '.' :: Nat.toDigits 10 b ++ '.' :: Nat.toDigits 10 c
        ++ '.' :: Nat.toDigits 10 d
  | .v6 bytes => List.intercalate [':'] (bytes.map (Nat.toDigits 10))

/-- The private/reserved classifier of lines 411-434: RFC3330 private IPv4
ranges, and for IPv6 anything outside Global Unicast 2000::/3. -/
def isPrivate : IPAddr → Bool
  | .v4 b0 b1 _ _ =>
      b0 == 10 || b0 == 127 || (b0 == 169 && b1 == 254)
        || (b0 == 172 && ((b1 &&& 0xf0) == 16)) || (b0 == 192 && b1 == 168)
  | .v6 bytes => ((bytes.headD 0) &&& 0xe0) != 0x20

/-- The per-iteration trust check of lines 328-352 minus the deny/break
decision: `some intl` means the iteration proceeds with `internal = intl`
(a matching entry, or an empty table which leaves `internal` untouched and
skips the `i && i >= nelts` stop); `none` means the current peer is
distrusted. -/
def trustCheck (tbl : List incapsula_proxymatch_t) (internal : Bool)
    (cur : IPAddr) : Option Bool :=
  match matchTable tbl cur with
  | some b => some b
  | none => if tbl.isEmpty then some internal else none

/-- Outcome of the header walk: either the mid-loop `return 403`, or loop
exit carrying the mutated connection address, the accumulated proxy list,
the leftover `remote` string and whether any promotion happened. -/
inductive WalkResult where
  | forbidden (cur : IPAddr) (curIp : Str) (promoted : Bool)
  | done (cur : IPAddr) (curIp : Str) (proxyIps : List Str)
      (remainder : Option Str) (promoted : Bool)
deriving DecidableEq, Repr

/-- Whether a walk outcome is the 403 return. -/
def WalkResult.isForbidden : WalkResult → Bool
  | .forbidden _ _ _ => true
  | .done _ _ _ _ _ => false

/-- Restored `remote` after an empty-trimming token (lines 369-375): with a
comma the `'\0'` is turned back into `','` leaving every byte intact; without
a comma the pointer has already been advanced past the leading spaces. -/
def restoreEmpty (pre : Option Str) (parse0 : Str) : Str :=
  match pre with
  | some p => p ++ ',' :: parse0
  | none => parse0.dropWhile (· == ' ')

/-- Restored `remote` after a parse failure or private-address rejection
(lines 404-408 and 439-443): the comma is rewritten, but the `'\0'`s written
by the trailing-space strip stay, so trailing spaces of the token are lost;
without a comma the restored string is exactly the trimmed token. -/
def restoreTok (pre : Option Str) (parse0 : Str) (tok : Str) : Str :=
  match pre with
  | some p => p ++ ',' :: (parse0.takeWhile (· == ' ') ++ tok)
  | none => tok

/-- The `while (remote)` walk of lines 324-464, fuel-indexed. Arguments after
the fuel mirror the loop-carried C locals: `internal`, `c->client_addr`,
`c->client_ip`, `proxy_ips` (as a list, joined on output), whether a
promotion occurred this request (the `c->client_addr != conn->orig_addr`
pointer test), and `remote`. -/
def walkF (tbl : List incapsula_proxymatch_t) (denyAll : Bool) :
    Nat → Bool → IPAddr → Str → List Str → Bool → Option Str → WalkResult
  | _, _, cur, curIp, proxyIps, promoted, none =>
      .done cur curIp proxyIps none promoted
  | 0, _, cur, curIp, proxyIps, promoted, some rem =>
      .done cur curIp proxyIps (some rem) promoted
  | fuel + 1, internal, cur, curIp, proxyIps, promoted, some rem =>
    match trustCheck tbl internal cur with
    | none =>
        if denyAll then .forbidden cur curIp promoted
        else .done cur curIp proxyIps (some rem) promoted
    | some intl =>
      let pre := (popSplit rem).1
      let parse0 := (popSplit rem).2
      let tok := trimRight (parse0.dropWhile (· == ' '))
      if tok.isEmpty then
        .done cur curIp proxyIps (some (restoreEmpty pre parse0)) promoted
      else
        match parseAddr tok with
        | none => .done cur curIp proxyIps (some (restoreTok pre parse0 tok)) promoted
        | some a =>
          if !intl && isPrivate a then
            .done cur curIp proxyIps (some (restoreTok pre parse0 tok)) promoted
          else
            walkF tbl denyAll fuel intl a (ipToStr a)
              (if intl then proxyIps else proxyIps ++ [curIp]) true pre

/-- The walk as invoked by the hook: fresh `internal = NULL`, empty proxy
list, no promotion yet, and fuel strictly exceeding the header length. -/
def runWalk (tbl : List incapsula_proxymatch_t) (denyAll : Bool)
    (cur : IPAddr) (curIp : Str) (h : Str) : WalkResult :=
  walkF tbl denyAll (h.length + 1) false cur curIp [] false (some h)

/-- Specification-side trace of the walk's hop promotions: the voucher's
textual address paired with the internal flag in force at that promotion,
in walk (nearest-to-farthest) order. Same recursion structure as `walkF`. -/
def walkPromotions (tbl : List incapsula_proxymatch_t) (denyAll : Bool) :
    Nat → Bool → IPAddr → Str → Option Str → List (Str × Bool)
  | _, _, _, _, none => []
  | 0, _, _, _, some _ => []
  | fuel + 1, internal, cur, curIp, some rem =>
    match trustCheck tbl internal cur with
    | none => []
    | some intl =>
      let pre := (popSplit rem).1
      let parse0 := (popSplit rem).2
      let tok := trimRight (parse0.dropWhile (· == ' '))
      if tok.isEmpty then []
      else
        match parseAddr tok with
        | none => []
        | some a =>
          if !intl && isPrivate a then []
          else (curIp, intl) :: walkPromotions tbl denyAll fuel intl a (ipToStr a) pre

/-- Request status returned by the hook: `OK` or `403`. -/
inductive Status where
  | ok
  | forbidden
deriving DecidableEq, Repr

/-- Request-scoped outputs: the return status, the
`"incapsula-proxy-ip-list"` note value, and the value stamped under the
configured proxies header (when configured). -/
structure ReqResult where
  status : Status
  note : Option Str
  republish : Option Str
deriving DecidableEq, Repr

/-- `apr_pstrcat(p, a, ", ", b, ...)` accumulation, as a join of the list. -/
def joinIps (ips : List Str) : Str :=
  List.intercalate ", ".data ips

/-- The `ditto_request_rec` tail (lines 538-552): the note and the optional
republished header are set only when `conn->proxy_ips` is non-null. -/
def applyNotes (cfg : incapsula_config_t) (ips : List Str) : ReqResult :=
  if ips.isEmpty then ⟨.ok, none, none⟩
  else ⟨.ok, some (joinIps ips),
        if cfg.proxies_header_name.isSome then some (joinIps ips) else none⟩

/-- The revert of lines 280-286: restore the connection address to the
original physical peer; the cached record itself is untouched. -/
def revertState (st : ConnState) (c : incapsula_conn_t) : ConnState :=
  { st with client_addr := c.orig_addr, client_ip := c.orig_ip }

/-- Lines 290-552 after the cache check: the absent-header early return,
the walk, the `Nothing happened?` return, and the fixups that overwrite the
connection cache after a promotion. -/
def processRequest (cfg : incapsula_config_t) (header : Option Str)
    (st : ConnState) : ReqResult × ConnState :=
  match header with
  | none => (⟨if cfg.deny_all then .forbidden else .ok, none, none⟩, st)
  | some h =>
    match runWalk (cfg.proxymatch_ip.getD []) cfg.deny_all
        st.client_addr st.client_ip h with
    | .forbidden cur curIp promoted =>
      (⟨.forbidden, none, none⟩,
       { client_addr := cur, client_ip := curIp,
         conn := match st.conn with
           | some c => some c
           | none =>
             if promoted then
               some ⟨none, st.client_addr, st.client_ip, [], none, none, none⟩
             else none })
    | .done cur curIp proxyIps remainder promoted =>
      if promoted then
        (applyNotes cfg proxyIps,
         { client_addr := cur, client_ip := curIp,
           conn := some
             { prior_remote := some h
               orig_addr := match st.conn with
                 | some c => c.orig_addr
                 | none => st.client_addr
               orig_ip := match st.conn with
                 | some c => c.orig_ip
                 | none => st.client_ip
               proxy_ips := proxyIps
               proxied_remote := remainder
               proxied_ip := some curIp
               proxied_addr := some cur } })
      else (⟨.ok, none, none⟩, st)

/-- `incapsula_modify_connection` (lines 248-553): the cached-connection
check (ditto on an identical header, revert otherwise) wrapped around
`processRequest`. The uninitialised `prior_remote` of a cache record that
was stored on a mid-walk 403 is modelled as never comparing equal. -/
def incapsula_modify_connection (cfg : incapsula_config_t)
    (header : Option Str) (st : ConnState) : ReqResult × ConnState :=
  match st.conn, header with
  | some c, some h =>
    if c.prior_remote = some h then (applyNotes cfg c.proxy_ips, st)
    else processRequest cfg (some h) (revertState st c)
  | some c, none => processRequest cfg none (revertState st c)
  | none, _ => processRequest cfg header st

/-! Shared helper lemmas about the header surgery and the cache wrapper. -/

lemma popSplit_of_not_mem (s : Str) (h : ',' ∉ s) : popSplit s = (none, s) := by
  induction s with
  | nil => rfl
  | cons c cs ih =>
    have hc : c ≠ ',' := fun hx => h (hx ▸ List.mem_cons_self c cs)
    have hcs : ',' ∉ cs := fun hx => h (List.mem_cons_of_mem c hx)
    simp [popSplit, ih hcs, hc]

lemma popSplit_append (pre suf : Str) (h : ',' ∉ suf) :
    popSplit (pre ++ ',' :: suf) = (some pre, suf) := by
  induction pre with
  | nil => simp [popSplit, popSplit_of_not_mem suf h]
  | cons c pre ih => simp [popSplit, ih]

lemma dropWhile_all_spaces (s : Str) :
    (∀ c ∈ s, c = ' ') → s.dropWhile (· == ' ') = [] := by
  induction s with
  | nil => intro _; rfl
  | cons c cs ih =>
    intro h
    have hc : c = ' ' := h c (List.mem_cons_self c cs)
    simp [List.dropWhile, hc]
    exact fun x hx => h x (List.mem_cons_of_mem c hx)

lemma modify_ditto (cfg : incapsula_config_t) (c : incapsula_conn_t) (h : Str)
    (ca : IPAddr) (ci : Str) (hp : c.prior_remote = some h) :
    incapsula_modify_connection cfg (some h) ⟨ca, ci, some c⟩
      = (applyNotes cfg c.proxy_ips, ⟨ca, ci, some c⟩) := by
  simp [incapsula_modify_connection, hp]

lemma modify_mismatch (cfg : incapsula_config_t) (c : incapsula_conn_t) (h : Str)
    (ca : IPAddr) (ci : Str) (hp : c.prior_remote ≠ some h) :
    incapsula_modify_connection cfg (some h) ⟨ca, ci, some c⟩
      = processRequest cfg (some h) ⟨c.orig_addr, c.orig_ip, some c⟩ := by
  simp [incapsula_modify_connection, hp, revertState]

lemma modify_noconn (cfg : incapsula_config_t) (header : Option Str)
    (ca : IPAddr) (ci : Str) :
    incapsula_modify_connection cfg header ⟨ca, ci, none⟩
      = processRequest cfg header ⟨ca, ci, none⟩ := by
  cases header <;> rfl

/-! Concrete fixtures used by counterexamples and witnesses. -/

/-- The default configuration (as built by `create_incapsula_server_config`). -/
def cfgDefault : incapsula_config_t := create_incapsula_server_config

/-- The default configuration with `DenyAllButIncapsula` set. -/
def cfgDeny : incapsula_config_t := { cfgDefault with deny_all := true }

/-- A physical peer inside the default trusted range `198.143.32.0/19`. -/
def peerAddr : IPAddr := .v4 198 143 32 1

/-- Textual form of `peerAddr`. -/
def peerIp : Str := "198.143.32.1".data

/-- A fresh connection from the trusted physical peer (no cached state). -/
def stTrusted : ConnState := ⟨peerAddr, peerIp, none⟩

/-- Claim C1 (counterexample): with the deny-all policy enabled and the trust
header absent, the code returns 403 even though the physical peer matches the
trust table (`internal_flag` is `some false`, not none) — the absent-header
branch at lines 294-300 never consults the trust table, contradicting the
claim that Forbidden arises only for an unmatched peer. -/
theorem C1_counterexample :
    matchTable IC_DEFAULT_TRUSTED_PROXY peerAddr = some false
    ∧ incapsula_modify_connection cfgDeny none stTrusted
        = (⟨.forbidden, none, none⟩, stTrusted) := by
  decide

/-- Claim C1 (amended): when the header is absent, the hook returns 403
exactly when deny-all is configured — regardless of whether the physical peer
is a trusted proxy — and otherwise passes through; in both cases a previously
rewritten connection address is reverted to the physical original and the
cache is left untouched. -/
theorem C1_amended (cfg : incapsula_config_t) (st : ConnState) :
    incapsula_modify_connection cfg none st
      = (⟨if cfg.deny_all then .forbidden else .ok, none, none⟩,
         match st.conn with
         | some c => revertState st c
         | none => st) := by
  rcases st with ⟨ca, ci, co⟩
  cases co with
  | none => rfl
  | some c => rfl

/-- Claim C2 (counterexample): under deny-all, a hop promoted from the header
that then fails the trust-table match makes the walk return 403 — the deny
check at lines 345-348 runs on every iteration, not only against the physical
peer. Here the physical peer is trusted (first check passes), the promoted
hop `203.0.113.9` matches no entry, and the result is Forbidden rather than a
silent stop. -/
theorem C2_counterexample :
    matchTable IC_DEFAULT_TRUSTED_PROXY peerAddr = some false
    ∧ matchTable IC_DEFAULT_TRUSTED_PROXY (.v4 203 0 113 9) = none
    ∧ (incapsula_modify_connection cfgDeny
        (some "203.0.113.10, 203.0.113.9".data) stTrusted).1.status = .forbidden := by
  decide

/-- Claim C4 (confirmed): spec Scenario 3 — trusted external physical peer
`198.143.32.1` with header `"10.1.2.3"` (RFC1918 private): the walk halts on
the first hop with the client address unchanged, no consumed proxy hops, and
the rejected token preserved verbatim as the unconsumed remainder; the hook
passes the request through without modifying the connection. -/
theorem C4_scenario3 :
    runWalk IC_DEFAULT_TRUSTED_PROXY false peerAddr peerIp "10.1.2.3".data
      = .done peerAddr peerIp [] (some "10.1.2.3".data) false
    ∧ incapsula_modify_connection cfgDefault (some "10.1.2.3".data) stTrusted
        = (⟨.ok, none, none⟩, stTrusted) := by
  decide

/-- Claim C7 (counterexample): a whitespace-only token that is the entire
remaining header is NOT restored verbatim: for header `"   , 198.143.32.1"`
(peer `199.83.128.5` trusted), the first hop promotes and the walk then stops
on the all-space remainder `"   "`, but the recorded unconsumed remainder is
the empty string — the leading spaces are lost because line 373 keeps the
pointer already advanced past them. -/
theorem C7_counterexample :
    runWalk IC_DEFAULT_TRUSTED_PROXY false (.v4 199 83 128 5) "199.83.128.5".data
        "   , 198.143.32.1".data
      = .done (.v4 198 143 32 1) "198.143.32.1".data ["199.83.128.5".data]
          (some []) true
    ∧ ([] : Str) ≠ "   ".data := by
  decide

/-- Claim C9 (confirmed): `merge_incapsula_server_config` copies
`header_name`, `proxies_header_name` and `proxymatch_ip` but never reads or
writes `deny_all`: the merged record's `deny_all` is whatever the fresh
`apr_palloc` slot held, independent of both inputs' flags. -/
theorem C9_merge_deny_all (uninit : Bool) (globalc serverc : incapsula_config_t)
    (b1 b2 : Bool) :
    merge_incapsula_server_config uninit { globalc with deny_all := b1 }
        { serverc with deny_all := b2 }
      = merge_incapsula_server_config uninit globalc serverc
    ∧ (merge_incapsula_server_config uninit globalc serverc).deny_all = uninit := by
  exact ⟨rfl, rfl⟩

/-- Claim C8 (confirmed): the trust-table scan returns the `internal` flag of
the first entry in configured order whose subnet contains the address — it
coincides with `List.find?` — and returns none exactly when no entry's subnet
contains the address. The query is a pure function of the table and address. -/
theorem C8_match_first (tbl : List incapsula_proxymatch_t) (a : IPAddr) :
    matchTable tbl a
      = (tbl.find? fun e => subnetContains e.ip a).map (fun e => e.internal)
    ∧ (matchTable tbl a = none ↔ ∀ e ∈ tbl, subnetContains e.ip a = false) := by
  induction tbl with
  | nil => simp [matchTable]
  | cons e es ih =>
    by_cases hc : subnetContains e.ip a
    · simp [matchTable, hc, List.find?]
    · simp [matchTable, hc, List.find?, ih.1, ih.2]

/-- Claim C7 (amended): when the rightmost unconsumed token trims to empty,
the walk stops; if a comma precedes the fragment the original remaining
string is restored verbatim (the comma byte is rewritten and no other byte
was touched), but when the empty/whitespace fragment is the entire remaining
string the leading spaces are dropped — the recorded remainder is the empty
string, not the original whitespace. -/
theorem C7_amended (tbl : List incapsula_proxymatch_t)
    (denyAll internal intl : Bool) (cur : IPAddr) (curIp : Str)
    (ps : List Str) (pr : Bool) (fuel : Nat) (pre suf : Str)
    (htc : trustCheck tbl internal cur = some intl)
    (hsp : ∀ c ∈ suf, c = ' ') :
    walkF tbl denyAll (fuel + 1) internal cur curIp ps pr
        (some (pre ++ ',' :: suf))
      = .done cur curIp ps (some (pre ++ ',' :: suf)) pr
    ∧ walkF tbl denyAll (fuel + 1) internal cur curIp ps pr (some suf)
      = .done cur curIp ps (some []) pr := by
  have hnc : (',' : Char) ∉ suf := by
    intro hx
    have := hsp ',' hx
    exact absurd this (by decide)
  have hps := popSplit_append pre suf hnc
  have hps2 := popSplit_of_not_mem suf hnc
  have hdw := dropWhile_all_spaces suf hsp
  constructor
  · simp [walkF, htc, hps, hdw, trimRight, restoreEmpty]
  · simp [walkF, htc, hps2, hdw, trimRight, restoreEmpty]

/-- Claim C7 (witness): the amended statement at a concrete input — prefix
`"9.9.9.9"`, all-space fragment `"  "`, trusted current peer `199.83.128.5`
from the default table. -/
theorem C7_witness :
    walkF IC_DEFAULT_TRUSTED_PROXY false 9 false (.v4 199 83 128 5)
        "199.83.128.5".data [] false (some ("9.9.9.9".data ++ ',' :: "  ".data))
      = .done (.v4 199 83 128 5) "199.83.128.5".data []
          (some ("9.9.9.9".data ++ ',' :: "  ".data)) false
    ∧ walkF IC_DEFAULT_TRUSTED_PROXY false 9 false (.v4 199 83 128 5)
        "199.83.128.5".data [] false (some "  ".data)
      = .done (.v4 199 83 128 5) "199.83.128.5".data [] (some []) false :=
  C7_amended IC_DEFAULT_TRUSTED_PROXY false false false (.v4 199 83 128 5)
    "199.83.128.5".data [] false 8 "9.9.9.9".data "  ".data (by decide) (by decide)

/-- Claim C2 (amended): under deny-all, a failing trust check at ANY
iteration of the walk — the physical peer or any promoted hop — produces the
403; deny-all never lets the walk stop silently at a distrusted hop. Formally
the deny-all walk either returns Forbidden or agrees entirely with the
non-deny-all walk (whose only extra behaviour is the silent stop). -/
theorem C2_amended (fuel : Nat) : ∀ (tbl : List incapsula_proxymatch_t)
    (internal : Bool) (cur : IPAddr) (curIp : Str) (ps : List Str) (pr : Bool)
    (rem : Option Str),
    (walkF tbl true fuel internal cur curIp ps pr rem).isForbidden = true
    ∨ walkF tbl true fuel internal cur curIp ps pr rem
        = walkF tbl false fuel internal cur curIp ps pr rem := by
  induction fuel with
  | zero =>
    intro tbl internal cur curIp ps pr rem
    right
    cases rem <;> rfl
  | succ n ih =>
    intro tbl internal cur curIp ps pr rem
    cases rem with
    | none => right; rfl
    | some r =>
      cases htc : trustCheck tbl internal cur with
      | none => left; simp [walkF, htc, WalkResult.isForbidden]
      | some intl =>
        by_cases hemp : (trimRight ((popSplit r).2.dropWhile (· == ' '))).isEmpty = true
        · right; simp [walkF, htc, hemp]
        · cases hpa : parseAddr (trimRight ((popSplit r).2.dropWhile (· == ' '))) with
          | none => right; simp [walkF, htc, hemp, hpa]
          | some a =>
            by_cases hpriv : (!intl && isPrivate a) = true
            · right; simp [walkF, htc, hemp, hpa, hpriv]
            · rcases ih tbl intl a (ipToStr a)
                (if intl then ps else ps ++ [curIp]) true (popSplit r).1 with hf | he
              · left; simp [walkF, htc, hemp, hpa, hpriv, hf]
              · right; simp [walkF, htc, hemp, hpa, hpriv, he]

/-- The walk's accumulated proxy list equals the promotion trace filtered to
the promotions whose voucher was not internal, in walk order. Shared helper
for the audit-trail claims. -/
lemma walk_proxyIps_spec (fuel : Nat) : ∀ (tbl : List incapsula_proxymatch_t)
    (denyAll internal : Bool) (cur : IPAddr) (curIp : Str) (ps : List Str)
    (pr : Bool) (rem : Option Str) (cur' : IPAddr) (curIp' : Str)
    (ps' : List Str) (rem' : Option Str) (pr' : Bool),
    walkF tbl denyAll fuel internal cur curIp ps pr rem
      = .done cur' curIp' ps' rem' pr' →
    ps' = ps ++ ((walkPromotions tbl denyAll fuel internal cur curIp rem).filter
        (fun p => !p.2)).map Prod.fst := by
  induction fuel with
  | zero =>
    intro tbl denyAll internal cur curIp ps pr rem cur' curIp' ps' rem' pr' hw
    cases rem with
    | none =>
      simp [walkF] at hw
      simp [walkPromotions]
      exact hw.2.2.1.symm
    | some r =>
      simp [walkF] at hw
      simp [walkPromotions]
      exact hw.2.2.1.symm
  | succ n ih =>
    intro tbl denyAll internal cur curIp ps pr rem cur' curIp' ps' rem' pr' hw
    cases rem with
    | none =>
      simp [walkF] at hw
      simp [walkPromotions]
      exact hw.2.2.1.symm
    | some r =>
      cases htc : trustCheck tbl internal cur with
      | none =>
        simp [walkF, htc] at hw
        cases hd : denyAll with
        | true => simp [hd] at hw
        | false =>
          subst hd
          simp at hw
          simp [walkPromotions, htc]
          exact hw.2.2.1.symm
      | some intl =>
        by_cases hemp : (trimRight ((popSplit r).2.dropWhile (· == ' '))).isEmpty = true
        · simp [walkF, htc, hemp] at hw
          simp [walkPromotions, htc, hemp]
          exact hw.2.2.1.symm
        · cases hpa : parseAddr (trimRight ((popSplit r).2.dropWhile (· == ' '))) with
          | none =>
            simp [walkF, htc, hemp, hpa] at hw
            simp [walkPromotions, htc, hemp, hpa]
            exact hw.2.2.1.symm
          | some a =>
            by_cases hpriv : (!intl && isPrivate a) = true
            · simp [walkF, htc, hemp, hpa, hpriv] at hw
              simp [walkPromotions, htc, hemp, hpa, hpriv]
              exact hw.2.2.1.symm
            · have hw' : walkF tbl denyAll n intl a (ipToStr a)
                  (if intl then ps else ps ++ [curIp]) true (popSplit r).1
                  = .done cur' curIp' ps' rem' pr' := by
                simpa [walkF, htc, hemp, hpa, hpriv] using hw
              have hrec := ih tbl denyAll intl a (ipToStr a)
                (if intl then ps else ps ++ [curIp]) true (popSplit r).1
                cur' curIp' ps' rem' pr' hw'
              cases hi : intl with
              | true =>
                subst hi
                simp at hrec
                simp [walkPromotions, htc, hemp, hpa, hrec]
              | false =>
                subst hi
                have hpa2 : isPrivate a = false := by simpa using hpriv
                simp at hrec
                simp [walkPromotions, htc, hemp, hpa, hpa2, hrec,
                  List.append_assoc]

/-- Claim C6 (confirmed): the proxy audit list produced by a walk equals the
promotion trace restricted to the promotions whose vouching peer was not
flagged internal, mapped to the voucher addresses — so a voucher is appended
exactly when it was not internal, internal-vouched hops never appear, and the
entries are in nearest-to-farthest (walk) order. -/
theorem C6_consumed_audit (tbl : List incapsula_proxymatch_t) (denyAll : Bool)
    (cur : IPAddr) (curIp : Str) (h : Str) (cur' : IPAddr) (curIp' : Str)
    (ps' : List Str) (rem' : Option Str) (pr' : Bool)
    (hw : runWalk tbl denyAll cur curIp h = .done cur' curIp' ps' rem' pr') :
    ps' = ((walkPromotions tbl denyAll (h.length + 1) false cur curIp
        (some h)).filter (fun p => !p.2)).map Prod.fst := by
  have := walk_proxyIps_spec (h.length + 1) tbl denyAll false cur curIp [] false
    (some h) cur' curIp' ps' rem' pr' hw
  simpa using this

/-- Claim C6 (witness): spec Scenario 4 — peer `199.83.128.5`, header
`"203.0.113.9, 198.143.32.1"`, both hops vouched by external trusted
proxies; the audit list is exactly the filtered promotion trace, in
nearest-to-farthest order. -/
theorem C6_witness :
    ["199.83.128.5".data, "198.143.32.1".data]
      = ((walkPromotions IC_DEFAULT_TRUSTED_PROXY false
            ("203.0.113.9, 198.143.32.1".data.length + 1) false
            (.v4 199 83 128 5) "199.83.128.5".data
            (some "203.0.113.9, 198.143.32.1".data)).filter
          (fun p => !p.2)).map Prod.fst :=
  C6_consumed_audit IC_DEFAULT_TRUSTED_PROXY false (.v4 199 83 128 5)
    "199.83.128.5".data "203.0.113.9, 198.143.32.1".data
    (.v4 203 0 113 9) "203.0.113.9".data
    ["199.83.128.5".data, "198.143.32.1".data] none true (by decide)

/-- Claim C10 (confirmed): when every promotion of the pass was vouched for
exclusively by internal-flagged proxies, the hook still rewrites the client
address to the resolved value, but the consumed proxy list is empty, so
neither the `"incapsula-proxy-ip-list"` note nor the configured republished
proxies header is set. -/
theorem C10_internal_only (cfg : incapsula_config_t) (h : Str) (st : ConnState)
    (cur : IPAddr) (curIp : Str) (ps : List Str) (rem : Option Str)
    (hconn : st.conn = none)
    (hw : runWalk (cfg.proxymatch_ip.getD []) cfg.deny_all st.client_addr
        st.client_ip h = .done cur curIp ps rem true)
    (hint : ∀ p ∈ walkPromotions (cfg.proxymatch_ip.getD []) cfg.deny_all
        (h.length + 1) false st.client_addr st.client_ip (some h), p.2 = true) :
    incapsula_modify_connection cfg (some h) st
      = (⟨.ok, none, none⟩,
         { client_addr := cur, client_ip := curIp,
           conn := some ⟨some h, st.client_addr, st.client_ip, [], rem,
             some curIp, some cur⟩ }) := by
  have hps : ps = [] := by
    have hspec := walk_proxyIps_spec (h.length + 1) (cfg.proxymatch_ip.getD [])
      cfg.deny_all false st.client_addr st.client_ip [] false (some h)
      cur curIp ps rem true hw
    have hfil : (walkPromotions (cfg.proxymatch_ip.getD []) cfg.deny_all
        (h.length + 1) false st.client_addr st.client_ip (some h)).filter
          (fun p => !p.2) = [] := by
      rw [List.filter_eq_nil_iff]
      intro p hp
      simp [hint p hp]
    simpa [hfil] using hspec
  rcases st with ⟨ca, ci, co⟩
  simp only at hconn
  subst hconn
  rw [modify_noconn]
  simp only [processRequest]
  simp only at hw
  rw [hw]
  subst hps
  simp [applyNotes]

/-- An all-internal trust table covering the physical peer, with a
republish header configured — fixture for the internal-only-hops claim. -/
def cfgInternal : incapsula_config_t :=
  { header_name := some "Incap-Client-IP".data
    proxies_header_name := some "X-Client-IPs".data
    deny_all := false
    proxymatch_ip := some [⟨mkV4 198 143 32 0 19, true⟩] }

/-- Claim C10 (witness): internal proxy `198.143.32.1` vouches for
`203.0.113.9`; the address is rewritten, yet no note and no republished
header is produced even though a proxies header is configured. -/
theorem C10_witness :
    incapsula_modify_connection cfgInternal (some "203.0.113.9".data) stTrusted
      = (⟨.ok, none, none⟩,
         { client_addr := .v4 203 0 113 9, client_ip := "203.0.113.9".data,
           conn := some ⟨some "203.0.113.9".data, peerAddr, peerIp, [], none,
             some "203.0.113.9".data, some (.v4 203 0 113 9)⟩ }) :=
  C10_internal_only cfgInternal "203.0.113.9".data stTrusted
    (.v4 203 0 113 9) "203.0.113.9".data [] none rfl (by decide) (by decide)

/-- Claim C5 (confirmed): if a resolution pass leaves the connection with a
cache whose `prior_remote` equals the header value, then invoking the hook
again with the identical header value returns exactly the same result pair —
same status, same note (joined consumed proxy list), same republished header,
and an unchanged connection state (so `client_address`, `consumed_proxy_ips`
and `unconsumed_remainder` are byte-identical) — served by the ditto path
without recomputation. -/
theorem C5_repeat_identical (cfg : incapsula_config_t) (h : Str)
    (st0 : ConnState) (c1 : incapsula_conn_t)
    (h1 : (incapsula_modify_connection cfg (some h) st0).2.conn = some c1)
    (h2 : c1.prior_remote = some h) :
    incapsula_modify_connection cfg (some h)
        (incapsula_modify_connection cfg (some h) st0).2
      = incapsula_modify_connection cfg (some h) st0 := by
  rcases st0 with ⟨ca, ci, co⟩
  cases co with
  | some c0 =>
    by_cases hd : c0.prior_remote = some h
    · rw [modify_ditto cfg c0 h ca ci hd]
      exact modify_ditto cfg c0 h ca ci hd
    · rw [modify_mismatch cfg c0 h ca ci hd] at h1 ⊢
      rcases hw : runWalk (cfg.proxymatch_ip.getD []) cfg.deny_all
          c0.orig_addr c0.orig_ip h with ⟨cur, curIp, pr⟩ | ⟨cur, curIp, ps, rem, pr⟩
      · simp [processRequest, hw] at h1
        exact absurd (h1 ▸ h2) hd
      · cases pr with
        | true =>
          simp only [processRequest, hw] at h1 ⊢
          simp at h1 ⊢
          rw [modify_ditto]
          rfl
        | false =>
          simp [processRequest, hw] at h1
          exact absurd (h1 ▸ h2) hd
  | none =>
    rw [modify_noconn] at h1 ⊢
    rcases hw : runWalk (cfg.proxymatch_ip.getD []) cfg.deny_all
        ca ci h with ⟨cur, curIp, pr⟩ | ⟨cur, curIp, ps, rem, pr⟩
    · cases pr with
      | true =>
        simp [processRequest, hw] at h1
        rw [← h1] at h2
        simp at h2
      | false =>
        simp [processRequest, hw] at h1
    · cases pr with
      | true =>
        simp only [processRequest, hw] at h1 ⊢
        simp at h1 ⊢
        rw [modify_ditto]
        rfl
      | false =>
        simp [processRequest, hw] at h1

/-- Claim C5 (witness): first request from the trusted peer with header
`"203.0.113.9"` creates the cache; repeating the identical header returns
the identical result pair. -/
theorem C5_witness :
    incapsula_modify_connection cfgDefault (some "203.0.113.9".data)
        (incapsula_modify_connection cfgDefault (some "203.0.113.9".data)
          stTrusted).2
      = incapsula_modify_connection cfgDefault (some "203.0.113.9".data)
          stTrusted :=
  C5_repeat_identical cfgDefault "203.0.113.9".data stTrusted
    ⟨some "203.0.113.9".data, peerAddr, peerIp, [peerIp], none,
      some "203.0.113.9".data, some (.v4 203 0 113 9)⟩ (by decide) (by decide)

/-- Claim C3 (counterexample): three requests on one connection with headers
`"203.0.113.9"`, absent, `"203.0.113.9"`. The second request (header became
absent — a change) reverts the address but does NOT overwrite the cache:
`prior_remote` and `proxy_ips` keep the first request's values. The third
request is then served from that stale cache: the note is set from the old
proxy list while the client address stays the physical original
`198.143.32.1`, not the `203.0.113.9` that the first resolution produced —
contradicting both the overwrite and the no-stale-service parts of the
claim. -/
theorem C3_counterexample :
    (incapsula_modify_connection cfgDefault (some "203.0.113.9".data)
        stTrusted).2.client_addr = .v4 203 0 113 9
    ∧ (incapsula_modify_connection cfgDefault none
        (incapsula_modify_connection cfgDefault (some "203.0.113.9".data)
          stTrusted).2).2.client_addr = peerAddr
    ∧ (incapsula_modify_connection cfgDefault none
        (incapsula_modify_connection cfgDefault (some "203.0.113.9".data)
          stTrusted).2).2.conn.map (fun c => c.prior_remote)
        = some (some "203.0.113.9".data)
    ∧ (incapsula_modify_connection cfgDefault none
        (incapsula_modify_connection cfgDefault (some "203.0.113.9".data)
          stTrusted).2).2.conn.map (fun c => c.proxy_ips) = some [peerIp]
    ∧ (incapsula_modify_connection cfgDefault (some "203.0.113.9".data)
        (incapsula_modify_connection cfgDefault none
          (incapsula_modify_connection cfgDefault (some "203.0.113.9".data)
            stTrusted).2).2).1.note = some peerIp
    ∧ (incapsula_modify_connection cfgDefault (some "203.0.113.9".data)
        (incapsula_modify_connection cfgDefault none
          (incapsula_modify_connection cfgDefault (some "203.0.113.9".data)
            stTrusted).2).2).2.client_addr = peerAddr := by
  decide

/-- Claim C3 (amended): when the incoming header differs from the cached
`prior_remote` (including becoming absent), the connection address is first
reverted to the original and the request is processed exactly as from the
reverted connection. The cache, however, is overwritten only when the re-run
itself promotes a hop: with an absent header, or a re-run whose walk ends
without promotion, the cached record (including `prior_remote`) is left
unchanged, so a later request repeating the older header value is served the
stale cached results. -/
theorem C3_amended (cfg : incapsula_config_t) (st : ConnState)
    (c : incapsula_conn_t) (header : Option Str)
    (hc : st.conn = some c)
    (hmm : ∀ h, header = some h → c.prior_remote ≠ some h) :
    incapsula_modify_connection cfg header st
      = incapsula_modify_connection cfg header (revertState st c)
    ∧ (header = none →
        (incapsula_modify_connection cfg header st).2.conn = some c)
    ∧ (∀ h cur curIp ps rem, header = some h →
        runWalk (cfg.proxymatch_ip.getD []) cfg.deny_all c.orig_addr
          c.orig_ip h = .done cur curIp ps rem false →
        (incapsula_modify_connection cfg header st).2 = revertState st c) := by
  rcases st with ⟨ca, ci, co⟩
  simp only at hc
  subst hc
  cases header with
  | none =>
    refine ⟨rfl, fun _ => rfl, ?_⟩
    intro h cur curIp ps rem heq
    cases heq
  | some hh =>
    have hprior := hmm hh rfl
    refine ⟨?_, ?_, ?_⟩
    · rw [modify_mismatch cfg c hh ca ci hprior]
      rw [show revertState ⟨ca, ci, some c⟩ c
            = ⟨c.orig_addr, c.orig_ip, some c⟩ from rfl]
      rw [modify_mismatch cfg c hh c.orig_addr c.orig_ip hprior]
    · intro hx
      cases hx
    · intro h cur curIp ps rem heq hwdone
      cases heq
      rw [modify_mismatch cfg c hh ca ci hprior]
      simp [processRequest, hwdone, revertState]

/-- Claim C3 (witness): the amended statement at the concrete cached state
left by a first request (`prior_remote = "203.0.113.9"`), with a changed
header `"10.1.2.3"` whose re-run promotes nothing: the outcome equals
processing from the reverted connection, and the resulting state is exactly
the reverted one — cache untouched. -/
theorem C3_witness :
    incapsula_modify_connection cfgDefault (some "10.1.2.3".data)
        ⟨.v4 203 0 113 9, "203.0.113.9".data,
          some ⟨some "203.0.113.9".data, peerAddr, peerIp, [peerIp], none,
            some "203.0.113.9".data, some (.v4 203 0 113 9)⟩⟩
      = incapsula_modify_connection cfgDefault (some "10.1.2.3".data)
          (revertState
            ⟨.v4 203 0 113 9, "203.0.113.9".data,
              some ⟨some "203.0.113.9".data, peerAddr, peerIp, [peerIp], none,
                some "203.0.113.9".data, some (.v4 203 0 113 9)⟩⟩
            ⟨some "203.0.113.9".data, peerAddr, peerIp, [peerIp], none,
              some "203.0.113.9".data, some (.v4 203 0 113 9)⟩)
    ∧ (incapsula_modify_connection cfgDefault (some "10.1.2.3".data)
        ⟨.v4 203 0 113 9, "203.0.113.9".data,
          some ⟨some "203.0.113.9".data, peerAddr, peerIp, [peerIp], none,
            some "203.0.113.9".data, some (.v4 203 0 113 9)⟩⟩).2
      = revertState
          ⟨.v4 203 0 113 9, "203.0.113.9".data,
            some ⟨some "203.0.113.9".data, peerAddr, peerIp, [peerIp], none,
              some "203.0.113.9".data, some (.v4 203 0 113 9)⟩⟩
          ⟨some "203.0.113.9".data, peerAddr, peerIp, [peerIp], none,
            some "203.0.113.9".data, some (.v4 203 0 113 9)⟩ := by
  have hC := C3_amended cfgDefault
    ⟨.v4 203 0 113 9, "203.0.113.9".data,
      some ⟨some "203.0.113.9".data, peerAddr, peerIp, [peerIp], none,
        some "203.0.113.9".data, some (.v4 203 0 113 9)⟩⟩
    ⟨some "203.0.113.9".data, peerAddr, peerIp, [peerIp], none,
      some "203.0.113.9".data, some (.v4 203 0 113 9)⟩
    (some "10.1.2.3".data) rfl (by intro h hx; cases hx; decide)
  exact ⟨hC.1, hC.2.2 "10.1.2.3".data peerAddr peerIp [] (some "10.1.2.3".data)
    rfl (by decide)⟩
